import Mathlib

/-!
Verification of tools/make_nr/make_nr.py: a FASTA deduplication tool that
collapses records sharing a case-normalized sequence into one representative
record.  The definitions below are a shallow embedding of the function
make_nr (lines 50-98 of the script): the first pass builds the by_seq index,
the classifier splits it into unique singletons and duplicate clusters, and
the second pass rewrites the inputs.  FASTA parsing, done by the external
Biopython SimpleFastaParser, is modelled at the record level: each input file
is given as its list of (title, sequence) records.
-/

set_option maxRecDepth 20000

namespace MakeNr

/-- A FASTA record as yielded by SimpleFastaParser: the free-text title line
(without the leading marker) and the full concatenated sequence string. -/
structure Record where
  title : String
  seq : String
deriving DecidableEq

/-- Python expression title.split(None, 1)[0]: the first whitespace-delimited
token of the title, after skipping leading whitespace.  On an all-whitespace
title Python would raise IndexError; here the empty string is returned (no
claim exercises that case). -/
def firstWord (title : String) : String :=
  String.mk ((title.data.dropWhile Char.isWhitespace).takeWhile (fun c => !c.isWhitespace))

/-- Python expression seq.upper(): uppercase every character.  This is the
character-list form of String.toUpper, written structurally so that concrete
runs reduce inside the kernel. -/
def pyUpper (s : String) : String :=
  String.mk (s.data.map Char.toUpper)

/-- Ordered-dictionary lookup (d[k], also the membership test k in d): the
first entry carrying the key. -/
def alookup {α : Type} (k : String) : List (String × α) → Option α
  | [] => none
  | p :: rest => if p.1 = k then some p.2 else alookup k rest

/-- Ordered-dictionary assignment d[k] = v: when the key is present its value
is replaced in place (CPython dicts keep the original insertion position),
otherwise the new entry is appended at the end. -/
def pySet {α : Type} (d : List (String × α)) (k : String) (v : α) : List (String × α) :=
  if (alookup k d).isSome then
    d.map (fun p => if p.1 = k then (k, v) else p)
  else
    d ++ [(k, v)]

/-- Python set.add on a duplicate-free list model of a set. -/
def setInsert (s : List String) (x : String) : List String :=
  if x ∈ s then s else s ++ [x]

/-- Python set.update(xs). -/
def setUnion (s : List String) (xs : List String) : List String :=
  xs.foldl setInsert s

/-- One step of the first pass (lines 62-68): take the first word of the
title as identifier, uppercase the sequence, and append the identifier to
by_seq[seq], creating the entry when the lookup raises KeyError. -/
def addRecord (d : List (String × List String)) (r : Record) : List (String × List String) :=
  let idn := firstWord r.title
  let seq := pyUpper r.seq
  match alookup seq d with
  | some ids => pySet d seq (ids ++ [idn])
  | none => pySet d seq [idn]

/-- The by_seq index built by the first pass (lines 60-68): input files in
argument order, records within a file in stream order. -/
def by_seq (files : List (List Record)) : List (String × List String) :=
  files.foldl (fun d recs => recs.foldl addRecord d) []

/-- The classifier state (lines 69-71): the unique-singleton counter, the
representatives dict and the duplicates set. -/
structure Classified where
  unique : Nat
  representatives : List (String × List String)
  duplicates : List String
deriving DecidableEq

/-- Python expression cluster[0].  The clusters stored in by_seq are never
empty, so the default is never used on the values actually classified. -/
def clusterHead (c : List String) : String := c.headD ""

/-- One classifier step (lines 72-77): a cluster of length above one
registers representatives[cluster[0]] = cluster and adds cluster[1:] to the
duplicates set; any other cluster bumps the unique counter. -/
def classifyStep (st : Classified) (cluster : List String) : Classified :=
  if 1 < cluster.length then
    { st with
      representatives := pySet st.representatives (clusterHead cluster) cluster
      duplicates := setUnion st.duplicates cluster.tail }
  else
    { st with unique := st.unique + 1 }

/-- The full classifier loop over by_seq.values() in insertion order. -/
def classify (d : List (String × List String)) : Classified :=
  d.foldl (fun st p => classifyStep st p.2) ⟨0, [], []⟩

/-- The rewriter decision and record synthesis for one replayed record
(lines 84-93): a representative key gets the joined title and its own
sequence, a suppressed duplicate is skipped (continue), anything else is
kept unchanged. -/
def emitRec (sep : String) (reps : List (String × List String)) (dups : List String)
    (r : Record) : Option Record :=
  let idn := firstWord r.title
  match alookup idn reps with
  | some cluster =>
      some ⟨String.intercalate sep cluster ++ " representing " ++
              toString cluster.length ++ " records", r.seq⟩
  | none =>
      if idn ∈ dups then none
      else some r

/-- The string written to the output handle for one replayed record
(line 93); a suppressed record contributes nothing. -/
def emitString (sep : String) (reps : List (String × List String)) (dups : List String)
    (r : Record) : String :=
  match emitRec sep reps dups r with
  | some e => ">" ++ e.title ++ "\n" ++ e.seq ++ "\n"
  | none => ""

/-- The whole second pass (lines 81-93): replay the input files in argument
order and concatenate the per-record output strings. -/
def rewriteOutput (sep : String) (reps : List (String × List String)) (dups : List String)
    (files : List (List Record)) : String :=
  files.foldl (fun acc recs => recs.foldl (fun a r => a ++ emitString sep reps dups r) acc) ""

/-- The Python exceptions relevant to this script. -/
inductive PyExc where
  | importError
  | keyError
  | typeError
deriving DecidableEq

/-- Statement from Bio.SeqIO.FastaIO import SimpleFastaParser (line 57):
raises ImportError when Biopython is absent. -/
def importSimpleFastaParser (biopythonOk : Bool) : Except PyExc Unit :=
  if biopythonOk then .ok () else .error .importError

/-- A Python value that is either one path string or a list of them. -/
inductive PyStrOrList where
  | str (s : String)
  | list (xs : List String)

/-- Library function os.path.abspath: resolves a path string against the
working directory; applied to a non-string value such as a list it raises
TypeError (AttributeError under Python 2 - modelled as the same abort). -/
def os_path_abspath (cwd : String) : PyStrOrList → Except PyExc String
  | .str s => .ok (if s.startsWith "/" then s else cwd ++ "/" ++ s)
  | .list _ => .error .typeError

/-- Externally visible side effects of a successful run. -/
inductive Effect where
  | fileWrite (path content : String)
  | symlink (target linkpath : String)
  | stdout (line : String)
deriving DecidableEq

/-- How a call of make_nr terminates. -/
inductive RunResult where
  | sysExit (msg : String)
  | uncaught (e : PyExc)
  | ok (effects : List Effect)
deriving DecidableEq

/-- The summary line printed on the rewriting branch (lines 94-95). -/
def dupSummary (unique ndups nreps : Nat) : String :=
  toString unique ++ " unique entries; removed " ++ toString ndups ++
    " duplicates leaving " ++ toString nreps ++ " representative records"

/-- The summary line printed on the no-duplicates branch (line 98). -/
def noDupSummary (unique : Nat) : String :=
  "No perfect duplicates in file, " ++ toString unique ++ " unique entries"

/-- The whole call make_nr(input_fasta, output_fasta, sep), lines 50-98.
Each input is a (filename, parsed records) pair; biopythonOk says whether
the Biopython import succeeds; cwd is the working directory consulted by
os.path.abspath.  Note two faithfully kept details of the source: the import
guard catches only KeyError (line 58), and the no-duplicates branch passes
the whole input_fasta list - not a single filename - to os.path.abspath
(line 97). -/
def make_nr (biopythonOk : Bool) (cwd : String) (inputs : List (String × List Record))
    (output_fasta sep : String) : RunResult :=
  match importSimpleFastaParser biopythonOk with
  | .error e => if e = PyExc.keyError then .sysExit "Missing Biopython" else .uncaught e
  | .ok _ =>
    let st := classify (by_seq (inputs.map Prod.snd))
    if st.duplicates = [] then
      match os_path_abspath cwd (.list (inputs.map Prod.fst)) with
      | .error e => .uncaught e
      | .ok target => .ok [.symlink target output_fasta, .stdout (noDupSummary st.unique)]
    else
      .ok [.fileWrite output_fasta
             (rewriteOutput sep st.representatives st.duplicates (inputs.map Prod.snd)),
           .stdout (dupSummary st.unique st.duplicates.length st.representatives.length)]

/-- The identifiers, in stream order, of all records whose uppercased
sequence equals k: the intended content of by_seq[k]. -/
def grp (records : List Record) (k : String) : List String :=
  (records.filter (fun r => pyUpper r.seq = k)).map (fun r => firstWord r.title)

/-- Sum of the cluster sizes of an index or representatives dict. -/
def sizeSum (d : List (String × List String)) : Nat :=
  (d.map (fun p => p.2.length)).sum

/-- The first identifiers of the duplicate clusters, in index order. -/
def dupHeads (d : List (String × List String)) : List String :=
  (d.filter (fun p => 1 < p.2.length)).map (fun p => clusterHead p.2)

/-- The three possible rewriter decisions for a replayed record. -/
inductive RewriteDecision where
  | synthesize (cluster : List String)
  | drop
  | keep
deriving DecidableEq

/-- The rewriter branch decision as a function of the identifier alone. -/
def decideRecord (reps : List (String × List String)) (dups : List String)
    (idn : String) : RewriteDecision :=
  match alookup idn reps with
  | some cluster => .synthesize cluster
  | none => if idn ∈ dups then .drop else .keep

/-- Apply a rewriter decision to a record. -/
def applyDecision (sep : String) (d : RewriteDecision) (r : Record) : Option Record :=
  match d with
  | .synthesize cluster =>
      some ⟨String.intercalate sep cluster ++ " representing " ++
              toString cluster.length ++ " records", r.seq⟩
  | .drop => none
  | .keep => some r

/-! Dictionary lemmas. -/

theorem alookup_append {α : Type} (k : String) (d d' : List (String × α)) :
    alookup k (d ++ d') =
      match alookup k d with
      | some v => some v
      | none => alookup k d' := by
  induction d with
  | nil => rfl
  | cons p rest ih =>
    by_cases h : p.1 = k
    · simp [alookup, h]
    · simp [alookup, h, ih]

theorem alookup_replace_self {α : Type} (k : String) (v : α) (d : List (String × α)) :
    alookup k (d.map (fun p => if p.1 = k then (k, v) else p)) =
      (alookup k d).map (fun _ => v) := by
  induction d with
  | nil => rfl
  | cons p rest ih =>
    by_cases h : p.1 = k
    · simp [alookup, h]
    · simp [alookup, h, ih]

theorem alookup_replace_ne {α : Type} {k k' : String} (hne : k' ≠ k) (v : α)
    (d : List (String × α)) :
    alookup k' (d.map (fun p => if p.1 = k then (k, v) else p)) = alookup k' d := by
  induction d with
  | nil => rfl
  | cons p rest ih =>
    by_cases h : p.1 = k
    · have hkk : ¬ (k = k') := fun hh => hne hh.symm
      have hpk : ¬ (p.1 = k') := by rw [h]; exact hkk
      simp [alookup, h, hkk, hpk, ih]
    · simp [alookup, h, ih]

theorem alookup_pySet_self {α : Type} (d : List (String × α)) (k : String) (v : α) :
    alookup k (pySet d k v) = some v := by
  unfold pySet
  by_cases h : (alookup k d).isSome
  · rw [if_pos h, alookup_replace_self]
    cases hd : alookup k d with
    | none => rw [hd] at h; simp at h
    | some w => simp
  · rw [if_neg h, alookup_append]
    have hd : alookup k d = none := Option.not_isSome_iff_eq_none.1 h
    simp [hd, alookup]

theorem alookup_pySet_ne {α : Type} {k k' : String} (hne : k' ≠ k)
    (d : List (String × α)) (v : α) :
    alookup k' (pySet d k v) = alookup k' d := by
  unfold pySet
  by_cases h : (alookup k d).isSome
  · rw [if_pos h, alookup_replace_ne hne]
  · rw [if_neg h, alookup_append]
    have hkk : ¬ (k = k') := fun hh => hne hh.symm
    cases hd : alookup k' d <;> simp [alookup, hkk]

theorem alookup_pySet_cases {α : Type} {d : List (String × α)} {k k' : String} {v w : α}
    (h : alookup k' (pySet d k v) = some w) :
    (k' = k ∧ w = v) ∨ (k' ≠ k ∧ alookup k' d = some w) := by
  by_cases hk : k' = k
  · subst hk
    rw [alookup_pySet_self] at h
    exact Or.inl ⟨rfl, (Option.some_inj.1 h).symm⟩
  · rw [alookup_pySet_ne hk] at h
    exact Or.inr ⟨hk, h⟩

theorem alookup_pySet_isSome {α : Type} (d : List (String × α)) (k k' : String) (v : α) :
    (alookup k' (pySet d k v)).isSome ↔ ((alookup k' d).isSome ∨ k' = k) := by
  by_cases hk : k' = k
  · subst hk
    simp [alookup_pySet_self]
  · simp [alookup_pySet_ne hk, hk]

theorem alookup_eq_none {α : Type} (k : String) (d : List (String × α)) :
    alookup k d = none ↔ ∀ p ∈ d, p.1 ≠ k := by
  induction d with
  | nil => simp [alookup]
  | cons p rest ih =>
    by_cases h : p.1 = k
    · simp [alookup, h]
    · simp [alookup, h, ih]

theorem alookup_of_mem {α : Type} {d : List (String × α)} {p : String × α}
    (nk : (d.map Prod.fst).Nodup) (hp : p ∈ d) : alookup p.1 d = some p.2 := by
  induction d with
  | nil => simp at hp
  | cons q rest ih =>
    have nk' : q.1 ∉ rest.map Prod.fst ∧ (rest.map Prod.fst).Nodup := by
      simpa [List.nodup_cons] using nk
    rcases List.mem_cons.1 hp with rfl | hmem
    · simp [alookup]
    · have hne : ¬ (q.1 = p.1) := by
        intro he
        exact nk'.1 (he ▸ List.mem_map_of_mem Prod.fst hmem)
      simp [alookup, hne, ih nk'.2 hmem]

theorem map_fst_pySet {α : Type} (d : List (String × α)) (k : String) (v : α) :
    (pySet d k v).map Prod.fst =
      if (alookup k d).isSome then d.map Prod.fst else d.map Prod.fst ++ [k] := by
  unfold pySet
  by_cases h : (alookup k d).isSome
  · rw [if_pos h, if_pos h, List.map_map]
    apply List.map_congr_left
    intro p _
    by_cases hp : p.1 = k <;> simp [hp]
  · rw [if_neg h, if_neg h]
    simp

theorem nodup_fst_pySet {α : Type} {d : List (String × α)} (k : String) (v : α)
    (nk : (d.map Prod.fst).Nodup) : ((pySet d k v).map Prod.fst).Nodup := by
  rw [map_fst_pySet]
  by_cases h : (alookup k d).isSome
  · simpa [h] using nk
  · have hnone : alookup k d = none := Option.not_isSome_iff_eq_none.1 h
    have hk : k ∉ d.map Prod.fst := by
      intro hmem
      rcases List.mem_map.1 hmem with ⟨p, hp, he⟩
      exact (alookup_eq_none k d).1 hnone p hp he
    rw [if_neg h]
    simp [List.nodup_append, nk, hk]

/-! Characterization of the first-pass index. -/

/-- What a by_seq lookup evolves into: an existing entry grows by the new
identifiers, a missing entry appears as soon as its cluster is nonempty. -/
def lookupSpec (old : Option (List String)) (l : List String) : Option (List String) :=
  match old with
  | some v => some (v ++ l)
  | none => if l = [] then none else some l

theorem foldl_addRecord_alookup (rs : List Record) :
    ∀ (d : List (String × List String)) (k : String),
      alookup k (rs.foldl addRecord d) = lookupSpec (alookup k d) (grp rs k) := by
  induction rs with
  | nil =>
    intro d k
    have hg : grp ([] : List Record) k = [] := rfl
    rw [List.foldl_nil, hg]
    cases alookup k d <;> simp [lookupSpec]
  | cons r rs ih =>
    intro d k
    rw [List.foldl_cons, ih]
    by_cases hk : pyUpper r.seq = k
    · have hgrp : grp (r :: rs) k = firstWord r.title :: grp rs k := by
        simp [grp, hk]
      rw [hgrp]
      unfold addRecord
      cases hd : alookup (pyUpper r.seq) d with
      | some ids =>
        rw [hk] at hd
        simp only [hk]
        rw [hd, alookup_pySet_self]
        simp [lookupSpec, List.append_assoc]
      | none =>
        rw [hk] at hd
        simp only [hk]
        rw [hd, alookup_pySet_self]
        simp [lookupSpec]
    · have hgrp : grp (r :: rs) k = grp rs k := by
        simp [grp, hk]
      rw [hgrp]
      have hne : k ≠ pyUpper r.seq := fun he => hk he.symm
      unfold addRecord
      cases hd : alookup (pyUpper r.seq) d <;>
        simp only [hd] <;> rw [alookup_pySet_ne hne]

theorem by_seq_eq_flatten (files : List (List Record)) :
    by_seq files = (files.flatten).foldl addRecord [] := by
  suffices h : ∀ d, files.foldl (fun d recs => recs.foldl addRecord d) d =
      (files.flatten).foldl addRecord d by
    exact h []
  induction files with
  | nil => intro d; rfl
  | cons f fs ih =>
    intro d
    rw [List.foldl_cons, ih, List.flatten_cons, List.foldl_append]

theorem by_seq_alookup (files : List (List Record)) (k : String) :
    alookup k (by_seq files) =
      if grp files.flatten k = [] then none else some (grp files.flatten k) := by
  rw [by_seq_eq_flatten, foldl_addRecord_alookup]
  rfl

theorem nodup_fst_addRecord {d : List (String × List String)} (r : Record)
    (nk : (d.map Prod.fst).Nodup) : ((addRecord d r).map Prod.fst).Nodup := by
  simp only [addRecord]
  cases hd : alookup (pyUpper r.seq) d with
  | some ids =>
    simp only [hd]
    exact nodup_fst_pySet _ _ nk
  | none =>
    simp only [hd]
    exact nodup_fst_pySet _ _ nk

theorem nodup_fst_foldl (rs : List Record) :
    ∀ (d : List (String × List String)), (d.map Prod.fst).Nodup →
      (((rs.foldl addRecord d)).map Prod.fst).Nodup := by
  induction rs with
  | nil => intro d nk; exact nk
  | cons r rs ih =>
    intro d nk
    rw [List.foldl_cons]
    exact ih _ (nodup_fst_addRecord r nk)

theorem nodup_fst_by_seq (files : List (List Record)) :
    ((by_seq files).map Prod.fst).Nodup := by
  rw [by_seq_eq_flatten]
  exact nodup_fst_foldl _ [] (by simp)

theorem mem_by_seq {files : List (List Record)} {p : String × List String}
    (hp : p ∈ by_seq files) : p.2 = grp files.flatten p.1 ∧ p.2 ≠ [] := by
  have h1 := alookup_of_mem (nodup_fst_by_seq files) hp
  rw [by_seq_alookup] at h1
  by_cases hg : grp files.flatten p.1 = []
  · rw [if_pos hg] at h1
    cases h1
  · rw [if_neg hg] at h1
    have h2 : p.2 = grp files.flatten p.1 := (Option.some_inj.1 h1).symm
    exact ⟨h2, by rw [h2]; exact hg⟩

/-! Size bookkeeping for the index. -/

theorem sizeSum_cons (p : String × List String) (d : List (String × List String)) :
    sizeSum (p :: d) = p.2.length + sizeSum d := by
  simp [sizeSum]

theorem sizeSum_append (d d' : List (String × List String)) :
    sizeSum (d ++ d') = sizeSum d + sizeSum d' := by
  simp [sizeSum]

theorem map_replace_of_forall {α : Type} {k : String} (v : α) :
    ∀ (d : List (String × α)), (∀ p ∈ d, p.1 ≠ k) →
      d.map (fun p => if p.1 = k then (k, v) else p) = d
  | [], _ => rfl
  | p :: rest, h => by
    have hp : ¬ (p.1 = k) := h p (List.mem_cons_self p rest)
    simp only [List.map_cons, if_neg hp]
    rw [map_replace_of_forall v rest (fun q hq => h q (List.mem_cons_of_mem p hq))]

theorem sizeSum_replace {k : String} (w : List String) :
    ∀ (d : List (String × List String)) (ids : List String),
      (d.map Prod.fst).Nodup → alookup k d = some ids →
      sizeSum (d.map (fun p => if p.1 = k then (k, w) else p)) + ids.length =
        sizeSum d + w.length
  | [], ids, _, h => by simp [alookup] at h
  | p :: rest, ids, nk, h => by
    have nk' : p.1 ∉ rest.map Prod.fst ∧ (rest.map Prod.fst).Nodup := by
      simpa [List.nodup_cons] using nk
    by_cases hp : p.1 = k
    · have hids : p.2 = ids := by simpa [alookup, hp] using h
      have hrest : ∀ q ∈ rest, q.1 ≠ k := by
        intro q hq he
        have : p.1 ∈ rest.map Prod.fst := by
          rw [hp, ← he]
          exact List.mem_map_of_mem Prod.fst hq
        exact nk'.1 this
      simp only [List.map_cons, if_pos hp]
      rw [map_replace_of_forall w rest hrest, sizeSum_cons, sizeSum_cons, ← hids]
      dsimp only
      omega
    · have h' : alookup k rest = some ids := by simpa [alookup, hp] using h
      simp only [List.map_cons, if_neg hp]
      rw [sizeSum_cons, sizeSum_cons]
      have := sizeSum_replace w rest ids nk'.2 h'
      omega

theorem sizeSum_addRecord (d : List (String × List String)) (r : Record)
    (nk : (d.map Prod.fst).Nodup) : sizeSum (addRecord d r) = sizeSum d + 1 := by
  simp only [addRecord]
  cases hd : alookup (pyUpper r.seq) d with
  | some ids =>
    simp only [hd]
    have hs : (alookup (pyUpper r.seq) d).isSome := by simp [hd]
    unfold pySet
    rw [if_pos hs]
    have hrep := sizeSum_replace (ids ++ [firstWord r.title]) d ids nk hd
    rw [List.length_append] at hrep
    simp only [List.length_cons, List.length_nil] at hrep
    omega
  | none =>
    simp only [hd]
    have hs : ¬ (alookup (pyUpper r.seq) d).isSome := by simp [hd]
    unfold pySet
    rw [if_neg hs, sizeSum_append]
    simp [sizeSum]

theorem sizeSum_foldl (rs : List Record) :
    ∀ (d : List (String × List String)), (d.map Prod.fst).Nodup →
      sizeSum (rs.foldl addRecord d) = sizeSum d + rs.length := by
  induction rs with
  | nil => intro d _; simp
  | cons r rs ih =>
    intro d nk
    rw [List.foldl_cons, ih _ (nodup_fst_addRecord r nk), sizeSum_addRecord d r nk]
    simp [List.length_cons]
    omega

theorem sizeSum_by_seq (files : List (List Record)) :
    sizeSum (by_seq files) = (files.flatten).length := by
  rw [by_seq_eq_flatten]
  have h := sizeSum_foldl files.flatten [] (by simp)
  simpa [sizeSum] using h

/-! Classifier lemmas. -/

theorem dupHeads_cons_pos {p : String × List String} {rest : List (String × List String)}
    (h : 1 < p.2.length) : dupHeads (p :: rest) = clusterHead p.2 :: dupHeads rest := by
  simp [dupHeads, h]

theorem dupHeads_cons_neg {p : String × List String} {rest : List (String × List String)}
    (h : ¬ 1 < p.2.length) : dupHeads (p :: rest) = dupHeads rest := by
  simp [dupHeads, h]

theorem classifyStep_pos {st : Classified} {c : List String} (h : 1 < c.length) :
    classifyStep st c =
      { st with representatives := pySet st.representatives (clusterHead c) c,
                duplicates := setUnion st.duplicates c.tail } := by
  simp [classifyStep, h]

theorem classifyStep_neg {st : Classified} {c : List String} (h : ¬ 1 < c.length) :
    classifyStep st c = { st with unique := st.unique + 1 } := by
  simp [classifyStep, h]

theorem mem_setInsert (x y : String) (s : List String) :
    x ∈ setInsert s y ↔ x ∈ s ∨ x = y := by
  unfold setInsert
  by_cases h : y ∈ s
  · rw [if_pos h]
    constructor
    · exact Or.inl
    · rintro (hx | rfl)
      · exact hx
      · exact h
  · rw [if_neg h]
    simp

theorem mem_setUnion (x : String) (l : List String) :
    ∀ (s : List String), x ∈ setUnion s l ↔ x ∈ s ∨ x ∈ l := by
  induction l with
  | nil => intro s; simp [setUnion]
  | cons y l ih =>
    intro s
    rw [show setUnion s (y :: l) = setUnion (setInsert s y) l from rfl, ih, mem_setInsert]
    simp only [List.mem_cons]
    tauto

theorem setInsert_ne_nil (s : List String) (y : String) : setInsert s y ≠ [] := by
  unfold setInsert
  by_cases h : y ∈ s
  · rw [if_pos h]
    exact List.ne_nil_of_mem h
  · rw [if_neg h]
    simp

theorem setUnion_ne_nil_of_ne (l : List String) :
    ∀ (s : List String), s ≠ [] → setUnion s l ≠ [] := by
  induction l with
  | nil => intro s h; exact h
  | cons y l ih =>
    intro s _
    exact ih (setInsert s y) (setInsert_ne_nil s y)

theorem setUnion_ne_nil_left {l : List String} (hl : l ≠ []) (s : List String) :
    setUnion s l ≠ [] := by
  cases l with
  | nil => exact absurd rfl hl
  | cons y l => exact setUnion_ne_nil_of_ne l (setInsert s y) (setInsert_ne_nil s y)

theorem pySet_ne_nil {α : Type} (d : List (String × α)) (k : String) (v : α) :
    pySet d k v ≠ [] := by
  unfold pySet
  by_cases h : (alookup k d).isSome
  · rw [if_pos h]
    intro he
    rw [List.map_eq_nil_iff] at he
    subst he
    simp [alookup] at h
  · rw [if_neg h]
    simp

theorem classify_foldl_iff (l : List (String × List String)) :
    ∀ st : Classified, (∀ p ∈ l, p.2 ≠ []) →
      (st.representatives = [] ↔ st.duplicates = []) →
      ((l.foldl (fun st p => classifyStep st p.2) st).representatives = [] ↔
        (l.foldl (fun st p => classifyStep st p.2) st).duplicates = []) := by
  induction l with
  | nil => intro st _ h; exact h
  | cons p rest ih =>
    intro st h1 h2
    rw [List.foldl_cons]
    apply ih _ (fun q hq => h1 q (List.mem_cons_of_mem p hq))
    by_cases hlen : 1 < p.2.length
    · rw [classifyStep_pos hlen]
      have htail : p.2.tail ≠ [] := by
        intro hte
        have hlt := congrArg List.length hte
        rw [List.length_tail] at hlt
        simp at hlt
        omega
      constructor
      · intro he
        exact absurd he (pySet_ne_nil _ _ _)
      · intro he
        exact absurd he (setUnion_ne_nil_left htail _)
    · rw [classifyStep_neg hlen]
      exact h2

theorem classify_foldl_key_mono (l : List (String × List String)) :
    ∀ (st : Classified) (i : String), (alookup i st.representatives).isSome →
      (alookup i (l.foldl (fun st p => classifyStep st p.2) st).representatives).isSome := by
  induction l with
  | nil => intro st i h; exact h
  | cons p rest ih =>
    intro st i h
    rw [List.foldl_cons]
    apply ih
    by_cases hlen : 1 < p.2.length
    · rw [classifyStep_pos hlen]
      exact (alookup_pySet_isSome _ _ _ _).2 (Or.inl h)
    · rw [classifyStep_neg hlen]
      exact h

theorem classify_foldl_dups_mono (l : List (String × List String)) :
    ∀ (st : Classified) (i : String), i ∈ st.duplicates →
      i ∈ (l.foldl (fun st p => classifyStep st p.2) st).duplicates := by
  induction l with
  | nil => intro st i h; exact h
  | cons p rest ih =>
    intro st i h
    rw [List.foldl_cons]
    apply ih
    by_cases hlen : 1 < p.2.length
    · rw [classifyStep_pos hlen]
      exact (mem_setUnion _ _ _).2 (Or.inl h)
    · rw [classifyStep_neg hlen]
      exact h

theorem classify_foldl_contrib (l : List (String × List String)) :
    ∀ (st : Classified) (p : String × List String), p ∈ l → 1 < p.2.length →
      (alookup (clusterHead p.2)
          (l.foldl (fun st q => classifyStep st q.2) st).representatives).isSome ∧
      ∀ i ∈ p.2.tail, i ∈ (l.foldl (fun st q => classifyStep st q.2) st).duplicates := by
  induction l with
  | nil => intro st p hp; simp at hp
  | cons q rest ih =>
    intro st p hp hlen
    rw [List.foldl_cons]
    rcases List.mem_cons.1 hp with rfl | hmem
    · constructor
      · apply classify_foldl_key_mono
        rw [classifyStep_pos hlen]
        exact (alookup_pySet_isSome _ _ _ _).2 (Or.inr rfl)
      · intro i hi
        apply classify_foldl_dups_mono
        rw [classifyStep_pos hlen]
        exact (mem_setUnion _ _ _).2 (Or.inr hi)
    · exact ih _ p hmem hlen

theorem classify_foldl_rep_src (l : List (String × List String)) :
    ∀ (st : Classified) (i : String) (c : List String),
      alookup i (l.foldl (fun st p => classifyStep st p.2) st).representatives = some c →
      alookup i st.representatives = some c ∨
        ∃ p ∈ l, p.2 = c ∧ 1 < p.2.length ∧ clusterHead p.2 = i := by
  induction l with
  | nil => intro st i c h; exact Or.inl h
  | cons p rest ih =>
    intro st i c h
    rw [List.foldl_cons] at h
    rcases ih _ i c h with h' | ⟨q, hq, hq1, hq2, hq3⟩
    · by_cases hlen : 1 < p.2.length
      · rw [classifyStep_pos hlen] at h'
        rcases alookup_pySet_cases h' with ⟨he, hc⟩ | ⟨_, hold⟩
        · exact Or.inr ⟨p, List.mem_cons_self p rest, hc.symm, hlen, he.symm⟩
        · exact Or.inl hold
      · rw [classifyStep_neg hlen] at h'
        exact Or.inl h'
    · exact Or.inr ⟨q, List.mem_cons_of_mem p hq, hq1, hq2, hq3⟩

theorem classify_foldl_dup_src (l : List (String × List String)) :
    ∀ (st : Classified) (i : String),
      i ∈ (l.foldl (fun st p => classifyStep st p.2) st).duplicates →
      i ∈ st.duplicates ∨ ∃ p ∈ l, i ∈ p.2.tail := by
  induction l with
  | nil => intro st i h; exact Or.inl h
  | cons p rest ih =>
    intro st i h
    rw [List.foldl_cons] at h
    rcases ih _ i h with h' | ⟨q, hq, hq1⟩
    · by_cases hlen : 1 < p.2.length
      · rw [classifyStep_pos hlen] at h'
        rcases (mem_setUnion _ _ _).1 h' with h'' | h''
        · exact Or.inl h''
        · exact Or.inr ⟨p, List.mem_cons_self p rest, h''⟩
      · rw [classifyStep_neg hlen] at h'
        exact Or.inl h'
    · exact Or.inr ⟨q, List.mem_cons_of_mem p hq, hq1⟩

theorem classify_foldl_sum (l : List (String × List String)) :
    ∀ st : Classified,
      (∀ p ∈ l, p.2 ≠ []) → (dupHeads l).Nodup →
      (∀ i, (alookup i st.representatives).isSome → i ∉ dupHeads l) →
      (l.foldl (fun st p => classifyStep st p.2) st).unique +
          sizeSum (l.foldl (fun st p => classifyStep st p.2) st).representatives =
        st.unique + sizeSum st.representatives + sizeSum l := by
  induction l with
  | nil =>
    intro st _ _ _
    simp [sizeSum]
  | cons p rest ih =>
    intro st h1 h2 h3
    rw [List.foldl_cons]
    by_cases hlen : 1 < p.2.length
    · rw [dupHeads_cons_pos hlen] at h2 h3
      have hnodup : (dupHeads rest).Nodup := (List.nodup_cons.1 h2).2
      have hhead : clusterHead p.2 ∉ dupHeads rest := (List.nodup_cons.1 h2).1
      have hfresh : ¬ (alookup (clusterHead p.2) st.representatives).isSome := by
        intro hs
        exact h3 _ hs (List.mem_cons_self _ _)
      have hnew : ∀ i, (alookup i (classifyStep st p.2).representatives).isSome →
          i ∉ dupHeads rest := by
        intro i hi
        rw [classifyStep_pos hlen] at hi
        rcases (alookup_pySet_isSome _ _ _ _).1 hi with hold | he
        · intro hmem
          exact h3 i hold (List.mem_cons_of_mem _ hmem)
        · subst he
          exact hhead
      rw [ih _ (fun q hq => h1 q (List.mem_cons_of_mem p hq)) hnodup hnew]
      rw [classifyStep_pos hlen]
      have hps : sizeSum (pySet st.representatives (clusterHead p.2) p.2) =
          sizeSum st.representatives + p.2.length := by
        unfold pySet
        rw [if_neg hfresh, sizeSum_append, sizeSum_cons]
        simp [sizeSum]
      simp only [hps, sizeSum_cons]
      omega
    · rw [dupHeads_cons_neg hlen] at h2 h3
      have hnew : ∀ i, (alookup i (classifyStep st p.2).representatives).isSome →
          i ∉ dupHeads rest := by
        intro i hi
        rw [classifyStep_neg hlen] at hi
        exact h3 i hi
      rw [ih _ (fun q hq => h1 q (List.mem_cons_of_mem p hq)) h2 hnew]
      rw [classifyStep_neg hlen]
      have hlen1 : p.2.length = 1 := by
        have h0 : 0 < p.2.length := List.length_pos.2 (h1 p (List.mem_cons_self p rest))
        omega
      simp only [sizeSum_cons, hlen1]
      omega

/-! Lemmas about clusters and distinct identifiers. -/

theorem clusterHead_mem {c : List String} (h : c ≠ []) : clusterHead c ∈ c := by
  cases c with
  | nil => exact absurd rfl h
  | cons a t => exact List.mem_cons_self a t

theorem mem_of_tail_mem {c : List String} {i : String} (h : i ∈ c.tail) : i ∈ c := by
  cases c with
  | nil => simp at h
  | cons a t => exact List.mem_cons_of_mem a h

theorem clusterHead_not_mem_tail {c : List String} (h : c.Nodup) :
    clusterHead c ∉ c.tail := by
  cases c with
  | nil => simp
  | cons a t =>
    show a ∉ t
    exact (List.nodup_cons.1 h).1

theorem grp_nodup {records : List Record}
    (h : (records.map (fun r => firstWord r.title)).Nodup) (k : String) :
    (grp records k).Nodup := by
  unfold grp
  exact ((List.filter_sublist records).map (fun r => firstWord r.title)).nodup h

theorem grp_mem {records : List Record} {k i : String} (h : i ∈ grp records k) :
    ∃ r ∈ records, pyUpper r.seq = k ∧ firstWord r.title = i := by
  unfold grp at h
  rcases List.mem_map.1 h with ⟨r, hr, he⟩
  rcases List.mem_filter.1 hr with ⟨hr1, hr2⟩
  exact ⟨r, hr1, by simpa using hr2, he⟩

theorem grp_disjoint {records : List Record}
    (h : (records.map (fun r => firstWord r.title)).Nodup) {k k' : String} (hne : k ≠ k')
    {i : String} (hik : i ∈ grp records k) (hik' : i ∈ grp records k') : False := by
  rcases grp_mem hik with ⟨r, hr, hr1, hr2⟩
  rcases grp_mem hik' with ⟨r', hr', hr1', hr2'⟩
  have he : r = r' := List.inj_on_of_nodup_map h hr hr' (by rw [hr2, hr2'])
  rw [he] at hr1
  exact hne (hr1.symm.trans hr1')

theorem rep_lookup_spec {files : List (List Record)} {i : String} {c : List String}
    (hc : alookup i (classify (by_seq files)).representatives = some c) :
    ∃ k, c = grp files.flatten k ∧ c ≠ [] ∧ 1 < c.length ∧ clusterHead c = i := by
  have hsrc := classify_foldl_rep_src (by_seq files) ⟨0, [], []⟩ i c hc
  rcases hsrc with h0 | ⟨p, hp, hp1, hp2, hp3⟩
  · simp [alookup] at h0
  have hv := mem_by_seq hp
  refine ⟨p.1, ?_, ?_, ?_, ?_⟩
  · rw [← hp1]
    exact hv.1
  · rw [← hp1]
    exact hv.2
  · rw [← hp1]
    exact hp2
  · rw [← hp1]
    exact hp3

theorem dup_mem_spec {files : List (List Record)} {i : String}
    (hd : i ∈ (classify (by_seq files)).duplicates) :
    ∃ k, grp files.flatten k ≠ [] ∧ i ∈ (grp files.flatten k).tail := by
  have hsrc := classify_foldl_dup_src (by_seq files) ⟨0, [], []⟩ i hd
  rcases hsrc with h0 | ⟨p, hp, hp1⟩
  · simp at h0
  have hv := mem_by_seq hp
  refine ⟨p.1, ?_, ?_⟩
  · rw [← hv.1]
    exact hv.2
  · rw [← hv.1]
    exact hp1

/-- C4 (amended): provided record identifiers are pairwise distinct across
all input files, every key of the representatives dict lies outside the
duplicates set: the disjointness invariant the spec states. -/
theorem representatives_disjoint_of_nodup (files : List (List Record))
    (h : ((files.flatten).map (fun r => firstWord r.title)).Nodup) (i : String)
    (hk : (alookup i (classify (by_seq files)).representatives).isSome) :
    i ∉ (classify (by_seq files)).duplicates := by
  intro hdup
  rcases Option.isSome_iff_exists.1 hk with ⟨c, hc⟩
  rcases rep_lookup_spec hc with ⟨k, hck, hcne, _, hchead⟩
  rcases dup_mem_spec hdup with ⟨k', hgne, hgtail⟩
  have hik : i ∈ grp files.flatten k := by
    rw [← hck, ← hchead]
    exact clusterHead_mem hcne
  have hik' : i ∈ grp files.flatten k' := mem_of_tail_mem hgtail
  by_cases hkk : k = k'
  · subst hkk
    have hnd : (grp files.flatten k).Nodup := grp_nodup h k
    have hhead : clusterHead (grp files.flatten k) = i := by
      rw [← hck]
      exact hchead
    rw [← hhead] at hgtail
    exact clusterHead_not_mem_tail hnd hgtail
  · exact grp_disjoint h hkk hik hik'

/-- C4 counterexample: with records (x,AAAA),(y,AAAA),(z,CCCC),(x,CCCC) the
identifier x is both a representatives key (first member of the AAAA
cluster) and a member of the duplicates set (second member of the CCCC
cluster), so the disjointness claimed for every input fails on the code. -/
theorem representatives_disjoint_cex :
    (alookup "x" (classify (by_seq
        [[⟨"x", "AAAA"⟩, ⟨"y", "AAAA"⟩, ⟨"z", "CCCC"⟩, ⟨"x", "CCCC"⟩]])).representatives).isSome ∧
    "x" ∈ (classify (by_seq
        [[⟨"x", "AAAA"⟩, ⟨"y", "AAAA"⟩, ⟨"z", "CCCC"⟩, ⟨"x", "CCCC"⟩]])).duplicates := by
  decide

theorem representatives_disjoint_of_nodup_witness :
    (([[⟨"r1", "ACGT"⟩, ⟨"r2 x", "ACGT"⟩, ⟨"r3", "GGCC"⟩]] :
        List (List Record)).flatten.map (fun r => firstWord r.title)).Nodup ∧
    (alookup "r1" (classify (by_seq
        [[⟨"r1", "ACGT"⟩, ⟨"r2 x", "ACGT"⟩, ⟨"r3", "GGCC"⟩]])).representatives).isSome ∧
    "r1" ∉ (classify (by_seq
        [[⟨"r1", "ACGT"⟩, ⟨"r2 x", "ACGT"⟩, ⟨"r3", "GGCC"⟩]])).duplicates :=
  ⟨by decide, by decide,
    representatives_disjoint_of_nodup _ (by decide) "r1" (by decide)⟩

/-- C3 (amended): provided no two duplicate clusters share the same first
identifier, the unique-singleton count plus the sum of the representative
cluster sizes equals the total record count across all input files. -/
theorem classify_count_eq (files : List (List Record))
    (h : (dupHeads (by_seq files)).Nodup) :
    (classify (by_seq files)).unique +
        sizeSum (classify (by_seq files)).representatives =
      (files.flatten).length := by
  have h1 : ∀ p ∈ by_seq files, p.2 ≠ [] := fun p hp => (mem_by_seq hp).2
  have h3 : ∀ i : String, (alookup i (Classified.mk 0 [] []).representatives).isSome →
      i ∉ dupHeads (by_seq files) := by
    intro i hi
    simp [alookup] at hi
  have hmain := classify_foldl_sum (by_seq files) ⟨0, [], []⟩ h1 h h3
  unfold classify
  rw [hmain, sizeSum_by_seq]
  show 0 + 0 + (files.flatten).length = (files.flatten).length
  omega

/-- C3 counterexample: with records (x,AAAA),(y,AAAA),(x,CCCC),(w,CCCC) the
two duplicate clusters share the first identifier x, so the second
representatives assignment overwrites the first; unique is 0 and the stored
representative cluster sizes sum to 2, but there are 4 records. -/
theorem classify_count_cex :
    (classify (by_seq
          [[⟨"x", "AAAA"⟩, ⟨"y", "AAAA"⟩, ⟨"x", "CCCC"⟩, ⟨"w", "CCCC"⟩]])).unique +
        sizeSum (classify (by_seq
          [[⟨"x", "AAAA"⟩, ⟨"y", "AAAA"⟩, ⟨"x", "CCCC"⟩, ⟨"w", "CCCC"⟩]])).representatives ≠
      (([[⟨"x", "AAAA"⟩, ⟨"y", "AAAA"⟩, ⟨"x", "CCCC"⟩, ⟨"w", "CCCC"⟩]] :
          List (List Record)).flatten).length := by
  decide

theorem classify_count_eq_witness :
    (dupHeads (by_seq [[⟨"r1", "ACGT"⟩, ⟨"r2 x", "ACGT"⟩, ⟨"r3", "GGCC"⟩]])).Nodup ∧
    (classify (by_seq [[⟨"r1", "ACGT"⟩, ⟨"r2 x", "ACGT"⟩, ⟨"r3", "GGCC"⟩]])).unique +
        sizeSum (classify (by_seq
          [[⟨"r1", "ACGT"⟩, ⟨"r2 x", "ACGT"⟩, ⟨"r3", "GGCC"⟩]])).representatives =
      (([[⟨"r1", "ACGT"⟩, ⟨"r2 x", "ACGT"⟩, ⟨"r3", "GGCC"⟩]] :
          List (List Record)).flatten).length :=
  ⟨by decide, classify_count_eq _ (by decide)⟩

/-- C9: the representatives dict is empty exactly when the duplicates set is
empty, because every cluster of length above one contributes its first
member as a representatives key and all remaining members to the duplicates
set; hence the two fast-path triggers the spec names select the same branch. -/
theorem representatives_empty_iff_duplicates_empty (files : List (List Record)) :
    ((classify (by_seq files)).representatives = [] ↔
      (classify (by_seq files)).duplicates = []) ∧
    ∀ p ∈ by_seq files, 1 < p.2.length →
      (alookup (clusterHead p.2) (classify (by_seq files)).representatives).isSome ∧
      ∀ i ∈ p.2.tail, i ∈ (classify (by_seq files)).duplicates := by
  constructor
  · exact classify_foldl_iff (by_seq files) ⟨0, [], []⟩
      (fun p hp => (mem_by_seq hp).2) (by simp)
  · intro p hp hlen
    exact classify_foldl_contrib (by_seq files) ⟨0, [], []⟩ p hp hlen

theorem representatives_empty_iff_duplicates_empty_witness :
    (("ACGT", ["r1", "r2"]) ∈ by_seq [[⟨"r1", "ACGT"⟩, ⟨"r2 x", "ACGT"⟩, ⟨"r3", "GGCC"⟩]]) ∧
    (1 < (["r1", "r2"] : List String).length) ∧
    (alookup (clusterHead (["r1", "r2"] : List String)) (classify (by_seq
        [[⟨"r1", "ACGT"⟩, ⟨"r2 x", "ACGT"⟩, ⟨"r3", "GGCC"⟩]])).representatives).isSome ∧
    ∀ i ∈ (["r1", "r2"] : List String).tail,
      i ∈ (classify (by_seq
        [[⟨"r1", "ACGT"⟩, ⟨"r2 x", "ACGT"⟩, ⟨"r3", "GGCC"⟩]])).duplicates :=
  ⟨by decide, by decide,
    ((representatives_empty_iff_duplicates_empty _).2
      ("ACGT", ["r1", "r2"]) (by decide) (by decide)).1,
    ((representatives_empty_iff_duplicates_empty _).2
      ("ACGT", ["r1", "r2"]) (by decide) (by decide)).2⟩

/-- C7: the first-pass index groups records by uppercased sequence: looking
up a key yields exactly the identifiers of the records whose normalized
sequence is that key, in first-seen order (files in argument order, records
within a file in stream order); in particular any two records whose
sequences agree after uppercasing land in one cluster together. -/
theorem by_seq_clusters_spec (files : List (List Record)) :
    (∀ k, alookup k (by_seq files) =
        if grp files.flatten k = [] then none else some (grp files.flatten k)) ∧
    ∀ r1 ∈ files.flatten, ∀ r2 ∈ files.flatten, pyUpper r1.seq = pyUpper r2.seq →
      ∃ c, alookup (pyUpper r1.seq) (by_seq files) = some c ∧
        firstWord r1.title ∈ c ∧ firstWord r2.title ∈ c := by
  refine ⟨by_seq_alookup files, ?_⟩
  intro r1 h1 r2 h2 he
  have hm1 : firstWord r1.title ∈ grp files.flatten (pyUpper r1.seq) := by
    unfold grp
    exact List.mem_map_of_mem _ (List.mem_filter.2 ⟨h1, by simp⟩)
  have hm2 : firstWord r2.title ∈ grp files.flatten (pyUpper r1.seq) := by
    unfold grp
    exact List.mem_map_of_mem _ (List.mem_filter.2 ⟨h2, by simp [he]⟩)
  refine ⟨grp files.flatten (pyUpper r1.seq), ?_, hm1, hm2⟩
  rw [by_seq_alookup, if_neg (List.ne_nil_of_mem hm1)]

theorem by_seq_clusters_spec_witness :
    ((⟨"a", "acgt"⟩ : Record) ∈ ([[⟨"a", "acgt"⟩], [⟨"b", "ACGT"⟩]] :
        List (List Record)).flatten) ∧
    ((⟨"b", "ACGT"⟩ : Record) ∈ ([[⟨"a", "acgt"⟩], [⟨"b", "ACGT"⟩]] :
        List (List Record)).flatten) ∧
    (pyUpper "acgt" = pyUpper "ACGT") ∧
    ∃ c, alookup (pyUpper "acgt") (by_seq [[⟨"a", "acgt"⟩], [⟨"b", "ACGT"⟩]]) = some c ∧
      firstWord "a" ∈ c ∧ firstWord "b" ∈ c :=
  ⟨by decide, by decide, by decide,
    (by_seq_clusters_spec [[⟨"a", "acgt"⟩], [⟨"b", "ACGT"⟩]]).2
      ⟨"a", "acgt"⟩ (by decide) ⟨"b", "ACGT"⟩ (by decide) (by decide)⟩

/-- C8: make_nr is a pure function of its inputs: two runs on the same
parsed input files in the same order with the same separator (and the same
environment) give identical results. -/
theorem make_nr_deterministic (biopythonOk : Bool) (cwd : String)
    (inputs inputs' : List (String × List Record)) (output sep sep' : String)
    (h1 : inputs = inputs') (h2 : sep = sep') :
    make_nr biopythonOk cwd inputs output sep =
      make_nr biopythonOk cwd inputs' output sep' := by
  rw [h1, h2]

theorem make_nr_deterministic_witness :
    (([("A.fasta", [(⟨"r1", "ACGT"⟩ : Record), ⟨"r2", "ACGT"⟩])] :
        List (String × List Record)) =
      [("A.fasta", [(⟨"r1", "ACGT"⟩ : Record), ⟨"r2", "ACGT"⟩])]) ∧
    ((";" : String) = ";") ∧
    make_nr true "/w" [("A.fasta", [⟨"r1", "ACGT"⟩, ⟨"r2", "ACGT"⟩])] "out.fasta" ";" =
      make_nr true "/w" [("A.fasta", [⟨"r1", "ACGT"⟩, ⟨"r2", "ACGT"⟩])] "out.fasta" ";" :=
  ⟨rfl, rfl, make_nr_deterministic true "/w" _ _ "out.fasta" ";" ";" rfl rfl⟩

/-- C2 is violated by the code: the import guard at line 58 catches
KeyError, but a missing Biopython raises ImportError, so the failure
propagates uncaught instead of producing the sys.exit("Missing Biopython")
message the spec describes. -/
theorem make_nr_missing_biopython_uncaught (cwd : String)
    (inputs : List (String × List Record)) (output sep : String) :
    make_nr false cwd inputs output sep = RunResult.uncaught PyExc.importError ∧
    make_nr false cwd inputs output sep ≠ RunResult.sysExit "Missing Biopython" := by
  refine ⟨rfl, ?_⟩
  intro h
  have h2 : RunResult.uncaught PyExc.importError = RunResult.sysExit "Missing Biopython" := h
  simp at h2

/-- C1 is violated by the code: whenever the duplicates set is empty, the
script calls os.path.abspath on the whole input_fasta list (line 97) rather
than on a single filename, which raises TypeError; the run aborts before
any symlink is created or any summary is printed, including for single-file
invocations. -/
theorem make_nr_fastpath_crashes (cwd : String) (inputs : List (String × List Record))
    (output sep : String)
    (h : (classify (by_seq (inputs.map Prod.snd))).duplicates = []) :
    make_nr true cwd inputs output sep = RunResult.uncaught PyExc.typeError := by
  have hred : make_nr true cwd inputs output sep =
      if (classify (by_seq (inputs.map Prod.snd))).duplicates = [] then
        match os_path_abspath cwd (PyStrOrList.list (inputs.map Prod.fst)) with
        | Except.error e => RunResult.uncaught e
        | Except.ok target =>
            RunResult.ok [Effect.symlink target output,
              Effect.stdout (noDupSummary (classify (by_seq (inputs.map Prod.snd))).unique)]
      else
        RunResult.ok [Effect.fileWrite output (rewriteOutput sep
            (classify (by_seq (inputs.map Prod.snd))).representatives
            (classify (by_seq (inputs.map Prod.snd))).duplicates (inputs.map Prod.snd)),
          Effect.stdout (dupSummary (classify (by_seq (inputs.map Prod.snd))).unique
            (classify (by_seq (inputs.map Prod.snd))).duplicates.length
            (classify (by_seq (inputs.map Prod.snd))).representatives.length)] := rfl
  rw [hred, if_pos h]
  rfl

theorem make_nr_fastpath_crashes_witness :
    ((classify (by_seq (([("A.fasta", [⟨"r1", "ACGT"⟩, ⟨"r2", "GGCC"⟩])] :
          List (String × List Record)).map Prod.snd))).duplicates = []) ∧
    make_nr true "/work" [("A.fasta", [⟨"r1", "ACGT"⟩, ⟨"r2", "GGCC"⟩])] "out.fasta" ";" =
      RunResult.uncaught PyExc.typeError :=
  ⟨by decide, make_nr_fastpath_crashes "/work"
    [("A.fasta", [⟨"r1", "ACGT"⟩, ⟨"r2", "GGCC"⟩])] "out.fasta" ";" (by decide)⟩

/-! Rewriter lemmas. -/

theorem emitRec_rep {sep : String} {reps : List (String × List String)}
    {dups : List String} {r : Record} {c : List String}
    (h : alookup (firstWord r.title) reps = some c) :
    emitRec sep reps dups r =
      some ⟨String.intercalate sep c ++ " representing " ++
        toString c.length ++ " records", r.seq⟩ := by
  simp only [emitRec, h]

theorem emitRec_dup {sep : String} {reps : List (String × List String)}
    {dups : List String} {r : Record}
    (h : alookup (firstWord r.title) reps = none) (h2 : firstWord r.title ∈ dups) :
    emitRec sep reps dups r = none := by
  simp only [emitRec, h]
  rw [if_pos h2]

theorem emitRec_keep {sep : String} {reps : List (String × List String)}
    {dups : List String} {r : Record}
    (h : alookup (firstWord r.title) reps = none) (h2 : firstWord r.title ∉ dups) :
    emitRec sep reps dups r = some r := by
  simp only [emitRec, h]
  rw [if_neg h2]

/-- C6 (amended): in the rewriting pass a record whose identifier is in the
duplicates set and is not a representatives key contributes nothing to the
output, and a record whose identifier is neither a representatives key nor
in the duplicates set is written unchanged: one header line made of the
marker and the original title, then the full sequence verbatim on a single
line. -/
theorem suppressed_and_kept_records (sep : String) (reps : List (String × List String))
    (dups : List String) (r : Record)
    (hk : alookup (firstWord r.title) reps = none) :
    (firstWord r.title ∈ dups → emitString sep reps dups r = "") ∧
    (firstWord r.title ∉ dups →
      emitString sep reps dups r = ">" ++ r.title ++ "\n" ++ r.seq ++ "\n") := by
  constructor
  · intro h2
    unfold emitString
    rw [emitRec_dup hk h2]
  · intro h2
    unfold emitString
    rw [emitRec_keep hk h2]

/-- C6 counterexample: with records (x,AAAA),(y,AAAA),(z,CCCC),(x,CCCC) the
final record has its identifier x in the duplicates set, yet the rewriter
emits a synthesized representative record for it instead of suppressing it,
because the representatives-key branch is tested first. -/
theorem suppressed_record_emits_cex :
    "x" ∈ (classify (by_seq
        [[⟨"x", "AAAA"⟩, ⟨"y", "AAAA"⟩, ⟨"z", "CCCC"⟩, ⟨"x", "CCCC"⟩]])).duplicates ∧
    emitString ";"
        (classify (by_seq
          [[⟨"x", "AAAA"⟩, ⟨"y", "AAAA"⟩, ⟨"z", "CCCC"⟩, ⟨"x", "CCCC"⟩]])).representatives
        (classify (by_seq
          [[⟨"x", "AAAA"⟩, ⟨"y", "AAAA"⟩, ⟨"z", "CCCC"⟩, ⟨"x", "CCCC"⟩]])).duplicates
        ⟨"x", "CCCC"⟩ ≠ "" := by
  decide

theorem suppressed_and_kept_records_witness :
    (alookup "r2" [("r1", ["r1", "r2"])] = none) ∧
    ("r2" ∈ ["r2"]) ∧
    emitString ";" [("r1", ["r1", "r2"])] ["r2"] ⟨"r2 x", "ACGT"⟩ = "" :=
  ⟨by decide, by decide,
    (suppressed_and_kept_records ";" [("r1", ["r1", "r2"])] ["r2"]
      ⟨"r2 x", "ACGT"⟩ (by decide)).1 (by decide)⟩

/-- C10 (amended): the rewriter branch decision is a function of the
identifier alone (decideRecord never looks at the sequence or the
position), a record whose identifier is a representatives key is
synthesized with its own sequence - so k replayed records sharing that
identifier each produce a synthesized emission with the same cluster
title - and an identifier that is in the duplicates set and is not a
representatives key is dropped whatever its sequence. -/
theorem emit_decision_by_identifier (sep : String) (reps : List (String × List String))
    (dups : List String) :
    (∀ r : Record, emitRec sep reps dups r =
        applyDecision sep (decideRecord reps dups (firstWord r.title)) r) ∧
    (∀ (records : List Record) (i : String) (c : List String), alookup i reps = some c →
      (records.filter (fun r => firstWord r.title = i)).map (emitRec sep reps dups) =
        (records.filter (fun r => firstWord r.title = i)).map (fun r =>
          some ⟨String.intercalate sep c ++ " representing " ++
            toString c.length ++ " records", r.seq⟩)) ∧
    ∀ r : Record, alookup (firstWord r.title) reps = none → firstWord r.title ∈ dups →
      emitRec sep reps dups r = none := by
  refine ⟨?_, ?_, ?_⟩
  · intro r
    cases h : alookup (firstWord r.title) reps with
    | some cluster => simp [emitRec, decideRecord, applyDecision, h]
    | none =>
      by_cases h2 : firstWord r.title ∈ dups
      · simp [emitRec, decideRecord, applyDecision, h, h2]
      · simp [emitRec, decideRecord, applyDecision, h, h2]
  · intro records i c h
    apply List.map_congr_left
    intro r hr
    have hri : firstWord r.title = i := by
      have hmem := (List.mem_filter.1 hr).2
      simpa using hmem
    exact emitRec_rep (by rw [hri]; exact h)
  · intro r hk h2
    exact emitRec_dup hk h2

/-- C10 counterexample: with records (x,AAAA),(y,AAAA),(z,CCCC),(x,CCCC)
the fourth record has its identifier x in the duplicates set, yet emitRec
produces a synthesized representative record for it - the
representatives-key branch takes priority - so the unguarded dropped
clause of the claim fails at that record. -/
theorem emit_decision_cex :
    "x" ∈ (classify (by_seq
        [[⟨"x", "AAAA"⟩, ⟨"y", "AAAA"⟩, ⟨"z", "CCCC"⟩, ⟨"x", "CCCC"⟩]])).duplicates ∧
    emitRec ";"
        (classify (by_seq
          [[⟨"x", "AAAA"⟩, ⟨"y", "AAAA"⟩, ⟨"z", "CCCC"⟩, ⟨"x", "CCCC"⟩]])).representatives
        (classify (by_seq
          [[⟨"x", "AAAA"⟩, ⟨"y", "AAAA"⟩, ⟨"z", "CCCC"⟩, ⟨"x", "CCCC"⟩]])).duplicates
        ⟨"x", "CCCC"⟩ =
      some ⟨"x;y representing 2 records", "CCCC"⟩ := by
  decide

theorem emit_decision_by_identifier_witness :
    (alookup "x" [("x", ["x", "y"])] = some ["x", "y"]) ∧
    ([(⟨"x", "AAAA"⟩ : Record), ⟨"y", "AAAA"⟩, ⟨"x", "CCCC"⟩].filter
          (fun r => firstWord r.title = "x")).map (emitRec ";" [("x", ["x", "y"])] ["y"]) =
      ([(⟨"x", "AAAA"⟩ : Record), ⟨"y", "AAAA"⟩, ⟨"x", "CCCC"⟩].filter
          (fun r => firstWord r.title = "x")).map (fun r =>
        some ⟨String.intercalate ";" ["x", "y"] ++ " representing " ++
          toString (["x", "y"] : List String).length ++ " records", r.seq⟩) :=
  ⟨by decide,
    (emit_decision_by_identifier ";" [("x", ["x", "y"])] ["y"]).2.1
      [⟨"x", "AAAA"⟩, ⟨"y", "AAAA"⟩, ⟨"x", "CCCC"⟩] "x" ["x", "y"] (by decide)⟩

theorem rep_key_is_first {files : List (List Record)}
    (h : ((files.flatten).map (fun r => firstWord r.title)).Nodup)
    {r : Record} (hr : r ∈ files.flatten) {c : List String}
    (hc : alookup (firstWord r.title) (classify (by_seq files)).representatives = some c) :
    c = grp files.flatten (pyUpper r.seq) ∧ 1 < c.length ∧
    ∃ fl', (files.flatten).filter (fun x => pyUpper x.seq = pyUpper r.seq) = r :: fl' := by
  rcases rep_lookup_spec hc with ⟨k, hck, hcne, hclen, hchead⟩
  have hfl_ne : (files.flatten).filter (fun x => pyUpper x.seq = k) ≠ [] := by
    intro he
    apply hcne
    rw [hck]
    unfold grp
    rw [he]
    rfl
  cases hfl : (files.flatten).filter (fun x => pyUpper x.seq = k) with
  | nil => exact absurd hfl hfl_ne
  | cons r0 fl' =>
    have hr0f : r0 ∈ (files.flatten).filter (fun x => pyUpper x.seq = k) := by
      rw [hfl]
      exact List.mem_cons_self r0 fl'
    have hr0mem : r0 ∈ files.flatten := (List.mem_filter.1 hr0f).1
    have hr0P : pyUpper r0.seq = k := by
      have hb := (List.mem_filter.1 hr0f).2
      simpa using hb
    have hhead0 : clusterHead c = firstWord r0.title := by
      rw [hck]
      unfold grp
      rw [hfl]
      rfl
    have hid : firstWord r0.title = firstWord r.title := by
      rw [← hhead0, hchead]
    have hr0r : r0 = r := List.inj_on_of_nodup_map h hr0mem hr hid
    have hkr : pyUpper r.seq = k := by
      rw [← hr0r]
      exact hr0P
    subst hkr
    refine ⟨hck, hclen, fl', ?_⟩
    rw [hfl, hr0r]

/-- C5 (amended): provided record identifiers are pairwise distinct across
all input files, every replayed record whose identifier is a
representatives key is the first record of its duplicate cluster and is
emitted as the one synthesized record of that cluster: the title is the
cluster joined by the separator followed by the representing-N-records
annotation, the sequence is this record's own (hence the first-occurrence
bytes), no earlier replay position carries the same normalized sequence,
and no other replay position synthesizes the same cluster. -/
theorem representative_emit_spec (sep : String) (files : List (List Record))
    (h : ((files.flatten).map (fun r => firstWord r.title)).Nodup)
    (i : Nat) (hi : i < (files.flatten).length) (c : List String)
    (hc : alookup (firstWord ((files.flatten).get ⟨i, hi⟩).title)
        (classify (by_seq files)).representatives = some c) :
    emitRec sep (classify (by_seq files)).representatives
        (classify (by_seq files)).duplicates ((files.flatten).get ⟨i, hi⟩) =
      some ⟨String.intercalate sep c ++ " representing " ++ toString c.length ++ " records",
        ((files.flatten).get ⟨i, hi⟩).seq⟩ ∧
    c = grp files.flatten (pyUpper ((files.flatten).get ⟨i, hi⟩).seq) ∧
    1 < c.length ∧
    (∀ r' ∈ (files.flatten).take i,
        pyUpper r'.seq ≠ pyUpper ((files.flatten).get ⟨i, hi⟩).seq) ∧
    ∀ (j : Nat) (hj : j < (files.flatten).length),
      alookup (firstWord ((files.flatten).get ⟨j, hj⟩).title)
          (classify (by_seq files)).representatives = some c → j = i := by
  have hrmem : (files.flatten).get ⟨i, hi⟩ ∈ files.flatten := List.get_mem _ i hi
  obtain ⟨hck, hclen, fl', hfl⟩ := rep_key_is_first h hrmem hc
  have hnodup_recs : (files.flatten).Nodup := List.Nodup.of_map _ h
  refine ⟨emitRec_rep hc, hck, hclen, ?_, ?_⟩
  · intro r' hr' he
    have hsplit : (files.flatten).take i ++ (files.flatten).drop i = files.flatten :=
      List.take_append_drop i (files.flatten)
    have hfilter_split :
        ((files.flatten).take i).filter (fun x => pyUpper x.seq =
            pyUpper ((files.flatten).get ⟨i, hi⟩).seq) ++
          ((files.flatten).drop i).filter (fun x => pyUpper x.seq =
            pyUpper ((files.flatten).get ⟨i, hi⟩).seq) =
          (files.flatten).get ⟨i, hi⟩ :: fl' := by
      rw [← List.filter_append, hsplit, hfl]
    have hr'f : r' ∈ ((files.flatten).take i).filter (fun x => pyUpper x.seq =
        pyUpper ((files.flatten).get ⟨i, hi⟩).seq) :=
      List.mem_filter.2 ⟨hr', by simpa using he⟩
    cases htke : ((files.flatten).take i).filter (fun x => pyUpper x.seq =
        pyUpper ((files.flatten).get ⟨i, hi⟩).seq) with
    | nil =>
      rw [htke] at hr'f
      simp at hr'f
    | cons x xs =>
      rw [htke, List.cons_append] at hfilter_split
      have hx : x = (files.flatten).get ⟨i, hi⟩ := by
        injection hfilter_split with h1 h2
      have hxmem : x ∈ x :: xs := List.mem_cons_self x xs
      rw [← htke] at hxmem
      have hmem_take : (files.flatten).get ⟨i, hi⟩ ∈ (files.flatten).take i := by
        rw [← hx]
        exact (List.mem_filter.1 hxmem).1
      have hmem_drop : (files.flatten).get ⟨i, hi⟩ ∈ (files.flatten).drop i := by
        rw [List.drop_eq_getElem_cons hi]
        exact List.mem_cons_self _ _
      have hdisj := List.disjoint_of_nodup_append (by rw [hsplit]; exact hnodup_recs)
      exact hdisj hmem_take hmem_drop
  · intro j hj hcj
    have hjmem : (files.flatten).get ⟨j, hj⟩ ∈ files.flatten := List.get_mem _ j hj
    rcases rep_lookup_spec hc with ⟨k1, _, _, _, hh1⟩
    rcases rep_lookup_spec hcj with ⟨k2, _, _, _, hh2⟩
    have hid : firstWord ((files.flatten).get ⟨j, hj⟩).title =
        firstWord ((files.flatten).get ⟨i, hi⟩).title := hh2.symm.trans hh1
    have heq : (files.flatten).get ⟨j, hj⟩ = (files.flatten).get ⟨i, hi⟩ :=
      List.inj_on_of_nodup_map h hjmem hrmem hid
    have hfin := (hnodup_recs.get_inj_iff).1 heq
    exact congrArg Fin.val hfin

/-- C5 counterexample: with records (x,AAAA),(y,AAAA),(x,CCCC) the
identifier x heads the duplicate AAAA cluster but also names the third
record, so the rewriter synthesizes the cluster title twice - once at the
first-occurrence position with sequence AAAA and once at the third
position with sequence CCCC, which is not the first-occurrence bytes -
refuting the claim that the cluster is emitted as one record placed at its
first occurrence. -/
theorem representative_emit_cex :
    alookup "x" (classify (by_seq
        [[⟨"x", "AAAA"⟩, ⟨"y", "AAAA"⟩, ⟨"x", "CCCC"⟩]])).representatives =
      some ["x", "y"] ∧
    rewriteOutput ";"
        (classify (by_seq [[⟨"x", "AAAA"⟩, ⟨"y", "AAAA"⟩, ⟨"x", "CCCC"⟩]])).representatives
        (classify (by_seq [[⟨"x", "AAAA"⟩, ⟨"y", "AAAA"⟩, ⟨"x", "CCCC"⟩]])).duplicates
        [[⟨"x", "AAAA"⟩, ⟨"y", "AAAA"⟩, ⟨"x", "CCCC"⟩]] =
      ">x;y representing 2 records\nAAAA\n>x;y representing 2 records\nCCCC\n" := by
  decide

theorem representative_emit_spec_witness :
    ((([[⟨"r1", "ACGT"⟩, ⟨"r2 x", "ACGT"⟩, ⟨"r3", "GGCC"⟩]] :
          List (List Record)).flatten).map (fun r => firstWord r.title)).Nodup ∧
    emitRec ";"
        (classify (by_seq
          [[⟨"r1", "ACGT"⟩, ⟨"r2 x", "ACGT"⟩, ⟨"r3", "GGCC"⟩]])).representatives
        (classify (by_seq
          [[⟨"r1", "ACGT"⟩, ⟨"r2 x", "ACGT"⟩, ⟨"r3", "GGCC"⟩]])).duplicates
        ⟨"r1", "ACGT"⟩ =
      some ⟨"r1;r2 representing 2 records", "ACGT"⟩ :=
  ⟨by decide,
    (representative_emit_spec ";" [[⟨"r1", "ACGT"⟩, ⟨"r2 x", "ACGT"⟩, ⟨"r3", "GGCC"⟩]]
      (by decide) 0 (by decide) ["r1", "r2"] (by decide)).1⟩

end MakeNr
